import Mathlib

/-!
Shallow embedding of `iexfinance/stock.py` (StockReader, the
`output_format` decorator, and HistoricalReader) together with proofs
about its request building, response consolidation, endpoint selection,
output formatting and historical range resolution.

Conventions of the embedding:
* Python dicts are modelled as insertion-ordered association lists
  (`Dict`), with first-match lookup, in-place replacement on key
  collision for item assignment, and `dict.update` folding the second
  dict's items into the first.
* CPython's `is` comparison on short interned string literals
  (`self.output_format is 'pandas'`, `self.key is 'share'`) behaves as
  string equality for the literals the library uses, and is modelled as
  string equality.
* Raising an exception is modelled by returning `Except.error`.
-/

namespace IexFinance

/-- JSON-like values carried in API responses. -/
inductive JVal where
  | str (s : String)
  | num (n : Int)
  | obj (fields : List (String × JVal))
  | arr (elems : List JVal)
  | null

/-- A Python dict with `String` keys: an insertion-ordered association list. -/
abbrev Dict (β : Type) : Type := List (String × β)

/-- `d[k]` lookup returning `none` on a missing key (first match). -/
def dfind? {β : Type} (d : Dict β) (k : String) : Option β :=
  match d with
  | [] => none
  | (k', v) :: rest => if k' = k then some v else dfind? rest k

/-- `k in d` membership test. -/
def dcontains {β : Type} (d : Dict β) (k : String) : Bool :=
  (dfind? d k).isSome

/-- `d[k] = v` item assignment: replace in place if the key exists,
append otherwise (CPython insertion-order semantics). -/
def dinsert {β : Type} (d : Dict β) (k : String) (v : β) : Dict β :=
  match d with
  | [] => [(k, v)]
  | (k', v') :: rest =>
    if k' = k then (k, v) :: rest else (k', v') :: dinsert rest k v

/-- `d.update(d2)`: fold every item of `d2` into `d` by item assignment. -/
def dupdate {β : Type} (d d2 : Dict β) : Dict β :=
  d2.foldl (fun acc kv => dinsert acc kv.1 kv.2) d

/-- `list(d)` / `d.keys()` in order. -/
def dkeys {β : Type} (d : Dict β) : List String :=
  d.map Prod.fst

@[simp] theorem dfind?_nil {β : Type} (k : String) :
    dfind? ([] : Dict β) k = none := rfl

@[simp] theorem dfind?_cons {β : Type} (k' : String) (v : β) (rest : Dict β)
    (k : String) :
    dfind? ((k', v) :: rest) k = if k' = k then some v else dfind? rest k :=
  rfl

theorem dfind?_dinsert {β : Type} (d : Dict β) (k : String) (v : β)
    (k' : String) :
    dfind? (dinsert d k v) k' = if k = k' then some v else dfind? d k' := by
  induction d with
  | nil => simp [dinsert]
  | cons kv rest ih =>
    obtain ⟨a, b⟩ := kv
    by_cases hak : a = k
    · subst hak
      by_cases h : a = k' <;> simp [dinsert, h]
    · simp only [dinsert, if_neg hak]
      by_cases hak' : a = k'
      · subst hak'
        have : ¬ (k = a) := fun h => hak h.symm
        simp [this]
      · simp [hak', ih]

theorem dcontains_dinsert {β : Type} (d : Dict β) (k : String) (v : β)
    (k' : String) :
    dcontains (dinsert d k v) k' = (decide (k = k') || dcontains d k') := by
  by_cases h : k = k' <;> simp [dcontains, dfind?_dinsert, h]

theorem dfind?_mem {β : Type} (d : Dict β) (k : String) (v : β)
    (h : dfind? d k = some v) : (k, v) ∈ d := by
  induction d with
  | nil => simp [dfind?] at h
  | cons kv rest ih =>
    obtain ⟨a, b⟩ := kv
    by_cases hak : a = k
    · subst hak
      simp [dfind?] at h
      simp [h]
    · simp [dfind?, hak] at h
      exact List.mem_cons_of_mem _ (ih h)

theorem dfind?_eq_none_of_not_mem_keys {β : Type} (d : Dict β) (k : String)
    (h : k ∉ d.map Prod.fst) : dfind? d k = none := by
  induction d with
  | nil => rfl
  | cons kv rest ih =>
    obtain ⟨a, b⟩ := kv
    simp only [List.map_cons, List.mem_cons] at h
    push_neg at h
    have : a ≠ k := fun hh => h.1 hh.symm
    simp [dfind?, this, ih h.2]

theorem dfind?_dupdate {β : Type} (d d2 : Dict β)
    (h : (dkeys d2).Nodup) (k : String) :
    dfind? (dupdate d d2) k = ((dfind? d2 k).orElse (fun _ => dfind? d k)) := by
  induction d2 generalizing d with
  | nil => simp [dupdate, dfind?]
  | cons kv rest ih =>
    obtain ⟨a, b⟩ := kv
    simp only [dkeys, List.map_cons, List.nodup_cons] at h
    have hrest : (dkeys rest).Nodup := h.2
    have hnotin : a ∉ rest.map Prod.fst := h.1
    have step : dupdate d ((a, b) :: rest) = dupdate (dinsert d a b) rest := rfl
    rw [step, ih (dinsert d a b) hrest]
    by_cases hak : a = k
    · subst hak
      have hfr : dfind? rest a = none :=
        dfind?_eq_none_of_not_mem_keys rest a hnotin
      simp [dfind?, hfr, dfind?_dinsert, Option.orElse]
    · simp only [dfind?, if_neg hak]
      cases hr : dfind? rest k with
      | some v => simp [Option.orElse]
      | none => simp [Option.orElse, dfind?_dinsert, if_neg hak]

/-! ## The `output_format` decorator (`stock.py` lines 16-46)

`_format_wrapper` receives the raw `response` (a symbol-keyed dict) and
dispatches on `self.output_format` and on the decorator's `override`
argument.  In pandas mode with an override it emits a warning and then
falls off the end of the function, so Python returns `None`. -/

/-- Possible results of `_format_wrapper`. -/
inductive WrapperOut (β : Type) where
  | frame (d : Dict β)
  /-- The wrapper warned and fell through without a `return`: Python
  yields `None`. -/
  | noneVal
  /-- `response[self.symbols[0]]`: the unwrapped single-symbol value. -/
  | value (v : β)
  /-- The response returned as-is (symbol-keyed mapping). -/
  | mapping (d : Dict β)
  /-- `KeyError` from `response[self.symbols[0]]`, or `IndexError` from
  `self.symbols[0]` on an empty symbol list. -/
  | lookupErr

/-- `_format_wrapper` (lines 31-44).  The returned `Bool` records whether
the "Pandas output not supported" warning was emitted. -/
def formatWrapper {β : Type} (override : Option String)
    (output_fmt key : String) (symbols : List String) (response : Dict β) :
    Bool × WrapperOut β :=
  if output_fmt = "pandas" then
    match override with
    | none => (false, .frame response)
    | some _ => (true, .noneVal)
  else
    if key = "share" then
      match symbols with
      | [] => (false, .lookupErr)
      | s0 :: _ =>
        match dfind? response s0 with
        | some v => (false, .value v)
        | none => (false, .lookupErr)
    else (false, .mapping response)

/-! ## `StockReader.__init__`, `_default_options`, `params`
(`stock.py` lines 64-134) -/

/-- Python's `str.upper()`: uppercase every character. -/
def pyUpper (s : String) : String :=
  ⟨s.data.map Char.toUpper⟩

/-- `self.symbols = list(map(lambda x: x.upper(), symbols))` (line 81). -/
def storedSymbols (symbols : List String) : List String :=
  symbols.map pyUpper

/-- `self.key` as set on lines 82-85: `"share"` iff exactly one symbol. -/
def storedKey (symbols : List String) : String :=
  if symbols.length = 1 then "share" else "batch"

/-- A wire-request parameter value (string, int or bool). -/
inductive PVal where
  | s (v : String)
  | i (v : Int)
  | b (v : Bool)
deriving Repr, DecidableEq

/-- `StockReader._default_options` (lines 102-104). -/
def defaultOptions (range_ : String) (last : Int) (displayPercent : Bool) :
    Bool :=
  range_ = "1m" && last = 10 && displayPercent = false

/-- `StockReader.params` (lines 124-134): base keys `symbols`, `types`;
the three option keys are appended together exactly when some option is
non-default. -/
def stockParams (symbols : List String) (endpoints : String)
    (range_ : String) (last : Int) (displayPercent : Bool) : Dict PVal :=
  let params : Dict PVal :=
    [("symbols", PVal.s (String.intercalate "," symbols)),
     ("types", PVal.s endpoints)]
  if defaultOptions range_ last displayPercent then params
  else
    params ++ [("range", PVal.s range_), ("last", PVal.i last),
               ("displayPercent", PVal.b displayPercent)]

/-! ## `StockReader.refresh` (`stock.py` lines 106-118)

`refresh` fetches two endpoint groups, seeds `data_set` with the first
group's response, then for each requested symbol in order: raises
`IEXSymbolError(symbol)` if the symbol is missing from `data_set`, and
otherwise executes `data_set[symbol].update(data2[symbol])`, where the
subscript on `data2` raises a bare `KeyError` when the symbol is missing
from the second group's response. -/

/-- Errors `refresh` can raise. -/
inductive RefreshErr where
  /-- `IEXSymbolError(symbol)` (line 117). -/
  | symbolNotFound (s : String)
  /-- Bare `KeyError` from `data2[symbol]` (line 118). -/
  | keyErr (s : String)
deriving Repr, DecidableEq

/-- The per-symbol loop of `refresh` (lines 115-118), threading the
mutable `data_set`. -/
def refreshLoop {β : Type} (data2 : Dict (Dict β)) :
    List String → Dict (Dict β) → Except RefreshErr (Dict (Dict β))
  | [], ds => .ok ds
  | s :: rest, ds =>
    match dfind? ds s with
    | none => .error (.symbolNotFound s)
    | some entry =>
      match dfind? data2 s with
      | none => .error (.keyErr s)
      | some e2 => refreshLoop data2 rest (dinsert ds s (dupdate entry e2))

/-- `StockReader.refresh` given the two fetched group responses:
`data_set` starts as the first group's response and is merged in place. -/
def refresh {β : Type} (symbols : List String) (g1 g2 : Dict (Dict β)) :
    Except RefreshErr (Dict (Dict β)) :=
  refreshLoop g2 symbols g1

/-- `true` exactly when the outcome is an `IEXSymbolError`. -/
def isSymbolNotFound {β : Type} : Except RefreshErr β → Bool
  | .error (.symbolNotFound _) => true
  | _ => false

/-- The first requested symbol (in order) missing from either group
response. -/
def firstBad {β : Type} (symbols : List String) (g1 g2 : Dict (Dict β)) :
    Option String :=
  symbols.find? (fun s => !(dcontains g1 s && dcontains g2 s))

/-! ## `StockReader.get_select_endpoints` (`stock.py` lines 147-187)

A string argument is wrapped into a list; an empty list raises
`ValueError`.  For each symbol, `ds = self.data_set[symbol]` is guarded
by a `try/except KeyError` whose handler merely *constructs*
`IEXSymbolError(symbol)` without raising it, so on a missing symbol the
loop continues with `ds` still bound to the previous iteration's dict
(or unbound on the first iteration, making `ds[endpoint]` raise
`NameError`). -/

/-- Errors observable from `get_select_endpoints`. -/
inductive SelectErr where
  /-- `ValueError` on an empty endpoint list (line 172). -/
  | invalidInput
  /-- `IEXSymbolError` — constructed on line 179 but never raised. -/
  | symbolNotFound (s : String)
  /-- `IEXEndpointError(endpoint)` (line 184). -/
  | endpointNotFound (e : String)
  /-- `NameError`: `ds` unbound when the first symbol is missing. -/
  | nameErr
deriving Repr, DecidableEq

/-- The inner endpoint loop (lines 180-185) building `temp`. -/
def collectLoop {β : Type} (d : Dict β) :
    List String → Dict β → Except SelectErr (Dict β)
  | [], temp => .ok temp
  | e :: rest, temp =>
    match dfind? d e with
    | none => .error (.endpointNotFound e)
    | some v => collectLoop d rest (dinsert temp e v)

/-- The outer symbol loop (lines 174-186), threading the value of the
local variable `ds` across iterations (`none` = unbound). -/
def selectLoop {β : Type} (data_set : Dict (Dict β))
    (endpoints : List String) :
    List String → Option (Dict β) → Dict (Dict β) →
    Except SelectErr (Dict (Dict β))
  | [], _, result => .ok result
  | s :: rest, dsPrev, result =>
    match dfind? data_set s with
    | some d =>
      match collectLoop d endpoints [] with
      | .error e => .error e
      | .ok temp => selectLoop data_set endpoints rest (some d)
          (dinsert result s temp)
    | none =>
      -- `IEXSymbolError(s)` is constructed here but not raised;
      -- execution falls through with `ds` unchanged.
      match dsPrev with
      | none => .error .nameErr
      | some d =>
        match collectLoop d endpoints [] with
        | .error e => .error e
        | .ok temp => selectLoop data_set endpoints rest (some d)
            (dinsert result s temp)

/-- `get_select_endpoints` before the output-format wrapper
(lines 147-187). -/
def selectEndpoints {β : Type} (symbols : List String)
    (data_set : Dict (Dict β)) (endpoints : List String) :
    Except SelectErr (Dict (Dict β)) :=
  if endpoints.isEmpty then .error .invalidInput
  else selectLoop data_set endpoints symbols none []

/-! ## `HistoricalReader` (`stock.py` lines 589-655) -/

/-- The runtime type of the `symbols` argument to
`HistoricalReader.__init__`: a string, a list, or anything else. -/
inductive SymbolsArg where
  | str (s : String)
  | list (l : List String)
  | other
deriving Repr, DecidableEq

/-- `HistoricalReader.__init__` symbol classification (lines 604-612):
returns `(self.type, self.symlist)` or raises `ValueError`. -/
def classifySymbols : SymbolsArg → Except String (String × List String)
  | .list l =>
    if l.length > 1 then .ok ("Batch", l)
    else .error "Please input a symbol or list of symbols"
  | .str s => .ok ("Share", [s])
  | .other => .error "Please input a symbol or list of symbols"

/-- `HistoricalReader.chart_range` (lines 627-642), as a function of
`delta = datetime.now().year - self.start.year`. -/
def chartRange (delta : Int) : Except String String :=
  if 2 ≤ delta ∧ delta ≤ 5 then .ok "5y"
  else if 1 ≤ delta ∧ delta ≤ 2 then .ok "2y"
  else if 0 ≤ delta ∧ delta < 1 then .ok "1y"
  else .error "Invalid date specified. Must be within past 5 years."

/-- `chart_range` in terms of the current year and the start year. -/
def chartRangeOf (currentYear startYear : Int) : Except String String :=
  chartRange (currentYear - startYear)

/-! ## Instance state and accessors

Accessor methods are modelled as explicit state transformers over the
instance attributes they can read or write; none of the accessor bodies
in `stock.py` assigns to any attribute of `self`, which the embedding
makes visible by returning the state alongside the result. -/

/-- The mutable attributes of a `StockReader` instance. -/
structure StockState where
  symbols : List String
  key : String
  output_fmt : String
  range_ : String
  last : Int
  displayPercent : Bool
  data_set : Dict (Dict JVal)

/-- The dict comprehension
`{symbol: data_set[symbol][ep] for symbol in data_set.keys()}`
shared by the endpoint accessors; a missing endpoint key raises
`KeyError(ep)`. -/
def projectEndpoint (ep : String) :
    Dict (Dict JVal) → Except String (Dict JVal)
  | [] => .ok []
  | (s, d) :: rest =>
    match dfind? d ep with
    | none => .error ep
    | some v =>
      match projectEndpoint ep rest with
      | .error e => .error e
      | .ok r => .ok ((s, v) :: r)

/-- `get_all` (lines 136-145): returns `self.data_set` through the
wrapper with `override='json'`. -/
def getAllS (st : StockState) :
    (Bool × WrapperOut (Dict JVal)) × StockState :=
  (formatWrapper (some "json") st.output_fmt st.key st.symbols st.data_set,
   st)

/-- `get_quote` (lines 190-201): the quote comprehension through the
wrapper with `override=None`. -/
def getQuoteS (st : StockState) :
    Except String (Bool × WrapperOut JVal) × StockState :=
  ((projectEndpoint "quote" st.data_set).map
    (fun resp => formatWrapper none st.output_fmt st.key st.symbols resp),
   st)

/-- `get_price` (lines 393-408): the price comprehension through the
wrapper with `override='json'`. -/
def getPriceS (st : StockState) :
    Except String (Bool × WrapperOut JVal) × StockState :=
  ((projectEndpoint "price" st.data_set).map
    (fun resp =>
      formatWrapper (some "json") st.output_fmt st.key st.symbols resp),
   st)

/-- `get_select_endpoints` through the wrapper with `override='json'`. -/
def getSelectS (st : StockState) (endpoints : List String) :
    Except SelectErr (Bool × WrapperOut (Dict JVal)) × StockState :=
  ((selectEndpoints st.symbols st.data_set endpoints).map
    (fun r =>
      formatWrapper (some "json") st.output_fmt st.key st.symbols r),
   st)

/-! ## Theorems -/

/-- Claim C2: for a `HistoricalReader` whose start date has year `Y`
when the current year is `N`, with `delta = N - Y`: `delta ∈ [2,5]`
resolves the lookback bucket to `"5y"`, `delta ∈ [1,2)` to `"2y"`,
`delta ∈ [0,1)` to `"1y"`, and any other `delta` (negative or above 5)
fails with the `InvalidDateRange` error. -/
theorem chartRange_buckets (N Y : Int) :
    (2 ≤ N - Y ∧ N - Y ≤ 5 → chartRangeOf N Y = Except.ok "5y") ∧
    (1 ≤ N - Y ∧ N - Y < 2 → chartRangeOf N Y = Except.ok "2y") ∧
    (0 ≤ N - Y ∧ N - Y < 1 → chartRangeOf N Y = Except.ok "1y") ∧
    (N - Y < 0 ∨ 5 < N - Y →
      chartRangeOf N Y =
        Except.error "Invalid date specified. Must be within past 5 years.") := by
  unfold chartRangeOf chartRange
  refine ⟨?_, ?_, ?_, ?_⟩ <;> intro h
  · rw [if_pos h]
  · have h1 : ¬(2 ≤ N - Y ∧ N - Y ≤ 5) := by omega
    have h2 : 1 ≤ N - Y ∧ N - Y ≤ 2 := by omega
    rw [if_neg h1, if_pos h2]
  · have h1 : ¬(2 ≤ N - Y ∧ N - Y ≤ 5) := by omega
    have h2 : ¬(1 ≤ N - Y ∧ N - Y ≤ 2) := by omega
    rw [if_neg h1, if_neg h2, if_pos h]
  · have h1 : ¬(2 ≤ N - Y ∧ N - Y ≤ 5) := by omega
    have h2 : ¬(1 ≤ N - Y ∧ N - Y ≤ 2) := by omega
    have h3 : ¬(0 ≤ N - Y ∧ N - Y < 1) := by omega
    rw [if_neg h1, if_neg h2, if_neg h3]

/-- Concrete instance of `chartRange_buckets`: a start date two years
back resolves to the `"5y"` bucket. -/
theorem chartRange_buckets_witness :
    (2 ≤ (2018 : Int) - 2016 ∧ (2018 : Int) - 2016 ≤ 5) ∧
    chartRangeOf 2018 2016 = Except.ok "5y" :=
  ⟨by decide, (chartRange_buckets 2018 2016).1 (by decide)⟩

/-- Claim C5: in `HistoricalReader.__init__`, a single string selects
single-symbol (`"Share"`) mode with a singleton symbol list, a list of
more than one element selects `"Batch"` mode, and every other argument
— including a one-element list — raises the `InvalidInput`
`ValueError`. -/
theorem historical_symbol_classification (s : String) (l : List String) :
    classifySymbols (SymbolsArg.str s) = Except.ok ("Share", [s]) ∧
    (1 < l.length →
      classifySymbols (SymbolsArg.list l) = Except.ok ("Batch", l)) ∧
    (l.length ≤ 1 →
      classifySymbols (SymbolsArg.list l) =
        Except.error "Please input a symbol or list of symbols") ∧
    classifySymbols SymbolsArg.other =
      Except.error "Please input a symbol or list of symbols" := by
  refine ⟨rfl, ?_, ?_, rfl⟩ <;> intro h
  · simp only [classifySymbols]
    rw [if_pos h]
  · simp only [classifySymbols]
    rw [if_neg (by omega : ¬ l.length > 1)]

/-- Concrete instance of `historical_symbol_classification`: a
two-element list selects batch mode; a one-element list is rejected. -/
theorem historical_symbol_classification_witness :
    (1 < (["AAPL", "TSLA"] : List String).length ∧
      classifySymbols (SymbolsArg.list ["AAPL", "TSLA"]) =
        Except.ok ("Batch", ["AAPL", "TSLA"])) ∧
    ((["AAPL"] : List String).length ≤ 1 ∧
      classifySymbols (SymbolsArg.list ["AAPL"]) =
        Except.error "Please input a symbol or list of symbols") :=
  ⟨⟨by decide,
    (historical_symbol_classification "AAPL" ["AAPL", "TSLA"]).2.1
      (by decide)⟩,
   ⟨by decide,
    (historical_symbol_classification "AAPL" ["AAPL"]).2.2.1 (by decide)⟩⟩

/-- Claim C9 counterexample: constructing with the same ticker twice
(in different letter case) stores `["AAPL", "AAPL"]` — the stored
symbol list is *not* deduplicated. -/
theorem storedSymbols_duplicates_kept :
    storedSymbols ["AAPL", "aapl"] = ["AAPL", "AAPL"] ∧
    ¬ (storedSymbols ["AAPL", "aapl"]).Nodup := by
  refine ⟨by decide, ?_⟩
  decide

/-- Claim C9 (amended): the stored symbol list is the input list
uppercased elementwise — same length, input order preserved, duplicates
retained rather than removed. -/
theorem storedSymbols_upper_ordered (syms : List String) :
    (storedSymbols syms).length = syms.length ∧
    ∀ i : Nat, (storedSymbols syms)[i]? = syms[i]?.map pyUpper := by
  refine ⟨by simp [storedSymbols], ?_⟩
  intro i
  simp [storedSymbols]

/-- Claim C1: on an accessor whose decorator sets `override='json'`
(pandas unsupported), a `'pandas'`-mode call emits the warning but then
falls off the end of `_format_wrapper` and returns `None` — not the raw
structured data that `'json'` mode returns.  The code's own warning
text ("Defaulting to JSON.") and the accessor docstrings promise the
JSON data instead. -/
theorem pandas_fallthrough_returns_none :
    formatWrapper (some "json") "pandas" "share" ["AAPL"]
      [("AAPL", JVal.num 153)] = (true, WrapperOut.noneVal) ∧
    formatWrapper (some "json") "json" "share" ["AAPL"]
      [("AAPL", JVal.num 153)] =
      (false, WrapperOut.value (JVal.num 153)) ∧
    (WrapperOut.noneVal : WrapperOut JVal) ≠
      WrapperOut.value (JVal.num 153) := by
  refine ⟨rfl, rfl, ?_⟩
  intro h
  exact WrapperOut.noConfusion h

/-- Claim C4: `get_select_endpoints` never raises `IEXSymbolError` for
a symbol missing from the consolidated set — the handler constructs the
exception and discards it.  On a missing first symbol the local `ds` is
unbound and a `NameError` escapes instead; on a missing later symbol
the previous symbol's data is silently reused under the missing key. -/
theorem selectEndpoints_swallows_missing_symbol :
    selectEndpoints ["AAPL"] ([] : Dict (Dict JVal)) ["quote"] =
      Except.error SelectErr.nameErr ∧
    selectEndpoints ["AAPL", "MISSING"]
      [("AAPL", [("quote", JVal.num 7)])] ["quote"] =
      Except.ok [("AAPL", [("quote", JVal.num 7)]),
                 ("MISSING", [("quote", JVal.num 7)])] :=
  ⟨rfl, rfl⟩

/-- Claim C10: no accessor mutates the instance — each one returns the
state unchanged (in particular the consolidated `data_set`), so calling
any accessor twice on the same unrefreshed instance yields identical
output both times. -/
theorem accessors_pure_idempotent (st : StockState) (eps : List String) :
    (getAllS st).2 = st ∧
    (getAllS ((getAllS st).2)).1 = (getAllS st).1 ∧
    (getQuoteS st).2 = st ∧
    (getQuoteS ((getQuoteS st).2)).1 = (getQuoteS st).1 ∧
    (getPriceS st).2 = st ∧
    (getPriceS ((getPriceS st).2)).1 = (getPriceS st).1 ∧
    (getSelectS st eps).2 = st ∧
    (getSelectS ((getSelectS st eps).2) eps).1 = (getSelectS st eps).1 ∧
    ((getAllS st).2).data_set = st.data_set :=
  ⟨rfl, rfl, rfl, rfl, rfl, rfl, rfl, rfl, rfl⟩

/-- Claim C6: in structured (`'json'`) mode, an instance constructed
with exactly one symbol gets `key = "share"` and every accessor result
is unwrapped to the inner per-symbol value `response[symbols[0]]`; an
instance constructed with more than one symbol gets `key = "batch"` and
the symbol-keyed mapping is returned as-is. -/
theorem accessor_shape_by_symbol_count (ov : Option String)
    (syms : List String) (response : Dict JVal) :
    (∀ (s0 : String) (v : JVal), syms = [s0] →
      dfind? response (pyUpper s0) = some v →
      formatWrapper ov "json" (storedKey syms) (storedSymbols syms)
        response = (false, WrapperOut.value v)) ∧
    (1 < syms.length →
      formatWrapper ov "json" (storedKey syms) (storedSymbols syms)
        response = (false, WrapperOut.mapping response)) := by
  have hjp : ("json" : String) ≠ "pandas" := by decide
  constructor
  · rintro s0 v rfl hv
    simp [storedKey, storedSymbols, formatWrapper, hjp, hv]
  · intro h
    have hk : storedKey syms = "batch" := by
      unfold storedKey
      rw [if_neg (by omega : ¬ syms.length = 1)]
    have hbs : ("batch" : String) ≠ "share" := by decide
    rw [hk]
    simp [formatWrapper, hjp, hbs]

/-- Concrete instance of `accessor_shape_by_symbol_count`: one symbol
unwraps to the inner value, two symbols keep the mapping. -/
theorem accessor_shape_by_symbol_count_witness :
    ((["aapl"] : List String) = ["aapl"] ∧
      dfind? [("AAPL", JVal.num 5)] (pyUpper "aapl") = some (JVal.num 5) ∧
      formatWrapper none "json" (storedKey ["aapl"])
        (storedSymbols ["aapl"]) [("AAPL", JVal.num 5)] =
        (false, WrapperOut.value (JVal.num 5))) ∧
    (1 < (["aapl", "tsla"] : List String).length ∧
      formatWrapper none "json" (storedKey ["aapl", "tsla"])
        (storedSymbols ["aapl", "tsla"]) [("AAPL", JVal.num 5)] =
        (false, WrapperOut.mapping [("AAPL", JVal.num 5)])) :=
  ⟨⟨rfl, rfl,
    (accessor_shape_by_symbol_count none ["aapl"]
      [("AAPL", JVal.num 5)]).1 "aapl" (JVal.num 5) rfl rfl⟩,
   ⟨by decide,
    (accessor_shape_by_symbol_count none ["aapl", "tsla"]
      [("AAPL", JVal.num 5)]).2 (by decide)⟩⟩

/-- Claim C7: with all options at their defaults (`range = "1m"`,
`last = 10`, `displayPercent = False`) the wire parameters hold exactly
the `symbols` and `types` keys and none of the three option keys. -/
theorem params_default_omits_options (syms : List String) (eps : String)
    (r : String) (l : Int) (dp : Bool)
    (h : r = "1m" ∧ l = 10 ∧ dp = false) :
    dkeys (stockParams syms eps r l dp) = ["symbols", "types"] ∧
    dcontains (stockParams syms eps r l dp) "range" = false ∧
    dcontains (stockParams syms eps r l dp) "last" = false ∧
    dcontains (stockParams syms eps r l dp) "displayPercent" = false := by
  obtain ⟨h1, h2, h3⟩ := h
  subst h1; subst h2; subst h3
  exact ⟨rfl, rfl, rfl, rfl⟩

/-- Concrete instance of `params_default_omits_options` at the default
option values. -/
theorem params_default_omits_options_witness :
    (("1m" : String) = "1m" ∧ (10 : Int) = 10 ∧ false = false) ∧
    (dkeys (stockParams ["AAPL"] "quote,chart" "1m" 10 false) =
        ["symbols", "types"] ∧
      dcontains (stockParams ["AAPL"] "quote,chart" "1m" 10 false)
        "range" = false ∧
      dcontains (stockParams ["AAPL"] "quote,chart" "1m" 10 false)
        "last" = false ∧
      dcontains (stockParams ["AAPL"] "quote,chart" "1m" 10 false)
        "displayPercent" = false) :=
  ⟨⟨rfl, rfl, rfl⟩,
   params_default_omits_options ["AAPL"] "quote,chart" "1m" 10 false
     ⟨rfl, rfl, rfl⟩⟩

/-- Claim C8: as soon as one option differs from its default, all three
option keys `range`, `last`, `displayPercent` are sent — options still
at their default are not omitted individually. -/
theorem params_nondefault_sends_all_options (syms : List String)
    (eps : String) (r : String) (l : Int) (dp : Bool)
    (h : ¬(r = "1m" ∧ l = 10 ∧ dp = false)) :
    dkeys (stockParams syms eps r l dp) =
      ["symbols", "types", "range", "last", "displayPercent"] ∧
    dcontains (stockParams syms eps r l dp) "range" = true ∧
    dcontains (stockParams syms eps r l dp) "last" = true ∧
    dcontains (stockParams syms eps r l dp) "displayPercent" = true := by
  have hd : defaultOptions r l dp = false := by
    rcases Bool.eq_false_or_eq_true (defaultOptions r l dp) with hT | hF
    · unfold defaultOptions at hT
      simp only [Bool.and_eq_true, decide_eq_true_eq] at hT
      exact absurd ⟨hT.1.1, hT.1.2, hT.2⟩ h
    · exact hF
  unfold stockParams
  rw [if_neg (by simp [hd])]
  refine ⟨rfl, ?_, ?_, ?_⟩ <;>
    simp [dcontains, dfind?]

/-- Concrete instance of `params_nondefault_sends_all_options`: with a
non-default range, the still-default `last` and `displayPercent` are
sent too. -/
theorem params_nondefault_sends_all_options_witness :
    (¬(("5y" : String) = "1m" ∧ (10 : Int) = 10 ∧ false = false)) ∧
    (dkeys (stockParams ["AAPL"] "quote,chart" "5y" 10 false) =
        ["symbols", "types", "range", "last", "displayPercent"] ∧
      dcontains (stockParams ["AAPL"] "quote,chart" "5y" 10 false)
        "range" = true ∧
      dcontains (stockParams ["AAPL"] "quote,chart" "5y" 10 false)
        "last" = true ∧
      dcontains (stockParams ["AAPL"] "quote,chart" "5y" 10 false)
        "displayPercent" = true) :=
  ⟨by decide,
   params_nondefault_sends_all_options ["AAPL"] "quote,chart" "5y" 10
     false (by decide)⟩

/-! ## Consolidation lemmas for `refresh` -/

theorem dcontains_dinsert_self {β : Type} (ds : Dict β) (s : String)
    (v : β) (h : dcontains ds s = true) (x : String) :
    dcontains (dinsert ds s v) x = dcontains ds x := by
  rw [dcontains_dinsert]
  by_cases hsx : s = x
  · subst hsx
    simp [h]
  · simp [hsx]

theorem find?_ext {α : Type} (p q : α → Bool) :
    ∀ l : List α, (∀ x ∈ l, p x = q x) → l.find? p = l.find? q := by
  intro l h
  induction l with
  | nil => rfl
  | cons a t ih =>
    have ha : p a = q a := h a (List.mem_cons_self a t)
    simp only [List.find?]
    rw [ha]
    cases hqa : q a with
    | false =>
      exact ih fun x hx => h x (List.mem_cons_of_mem a hx)
    | true => rfl

theorem refreshLoop_ok_unchanged {β : Type} (g2 : Dict (Dict β)) :
    ∀ (syms : List String) (ds ds' : Dict (Dict β)),
      refreshLoop g2 syms ds = .ok ds' →
      ∀ t, t ∉ syms → dfind? ds' t = dfind? ds t := by
  intro syms
  induction syms with
  | nil =>
    intro ds ds' h t _
    simp only [refreshLoop] at h
    cases h
    rfl
  | cons s rest ih =>
    intro ds ds' h t ht
    simp only [refreshLoop] at h
    cases h1 : dfind? ds s with
    | none => rw [h1] at h; cases h
    | some entry =>
      rw [h1] at h
      cases h2 : dfind? g2 s with
      | none => rw [h2] at h; cases h
      | some e2 =>
        rw [h2] at h
        have htr : t ∉ rest := fun hm => ht (List.mem_cons_of_mem s hm)
        have hts : t ≠ s := fun he => ht (he ▸ List.mem_cons_self s rest)
        rw [ih _ _ h t htr, dfind?_dinsert,
          if_neg (fun he => hts he.symm)]

theorem refreshLoop_symbolNotFound_iff {β : Type} (g2 : Dict (Dict β)) :
    ∀ (syms : List String) (ds : Dict (Dict β)),
      isSymbolNotFound (refreshLoop g2 syms ds) = true ↔
      ∃ s, syms.find? (fun x => !(dcontains ds x && dcontains g2 x)) =
          some s ∧ dcontains ds s = false := by
  intro syms
  induction syms with
  | nil =>
    intro ds
    simp [refreshLoop, isSymbolNotFound, List.find?]
  | cons s rest ih =>
    intro ds
    simp only [refreshLoop]
    cases h1 : dfind? ds s with
    | none =>
      have hc : dcontains ds s = false := by
        simp [dcontains, h1]
      constructor
      · intro _
        refine ⟨s, ?_, hc⟩
        simp [List.find?, hc]
      · intro _
        rfl
    | some entry =>
      have hc : dcontains ds s = true := by
        simp [dcontains, h1]
      cases h2 : dfind? g2 s with
      | none =>
        have hc2 : dcontains g2 s = false := by
          simp [dcontains, h2]
        simp only [isSymbolNotFound]
        constructor
        · intro hfalse
          cases hfalse
        · rintro ⟨x, hx, hcx⟩
          simp [List.find?, hc, hc2] at hx
          rw [hx] at hc
          rw [hc] at hcx
          cases hcx
      | some e2 =>
        have hc2 : dcontains g2 s = true := by
          simp [dcontains, h2]
        have hkeys : ∀ x,
            dcontains (dinsert ds s (dupdate entry e2)) x =
              dcontains ds x :=
          dcontains_dinsert_self ds s _ hc
        rw [ih (dinsert ds s (dupdate entry e2))]
        have hfind :
            rest.find? (fun x =>
                !(dcontains (dinsert ds s (dupdate entry e2)) x &&
                  dcontains g2 x)) =
              rest.find? (fun x => !(dcontains ds x && dcontains g2 x)) :=
          find?_ext _ _ rest (fun x _ => by rw [hkeys x])
        have hhead :
            (s :: rest).find?
                (fun x => !(dcontains ds x && dcontains g2 x)) =
              rest.find? (fun x => !(dcontains ds x && dcontains g2 x)) := by
          simp [List.find?, hc, hc2]
        rw [hfind, hhead]
        constructor
        · rintro ⟨x, hx, hcx⟩
          exact ⟨x, hx, by rw [← hkeys x]; exact hcx⟩
        · rintro ⟨x, hx, hcx⟩
          exact ⟨x, hx, by rw [hkeys x]; exact hcx⟩

theorem orElse_self_absorb {β : Type} (a b : Option β) :
    (a.orElse (fun _ => a.orElse (fun _ => b))) =
      a.orElse (fun _ => b) := by
  cases a <;> simp [Option.orElse]

theorem refreshLoop_ok_merge {β : Type} (g2 : Dict (Dict β))
    (h2 : ∀ p ∈ g2, (dkeys p.2).Nodup) :
    ∀ (syms : List String) (ds ds' : Dict (Dict β)),
      refreshLoop g2 syms ds = .ok ds' →
      ∀ s ∈ syms, ∃ e1 e2 m,
        dfind? ds s = some e1 ∧ dfind? g2 s = some e2 ∧
        dfind? ds' s = some m ∧
        ∀ e, dfind? m e =
          (dfind? e2 e).orElse (fun _ => dfind? e1 e) := by
  intro syms
  induction syms with
  | nil =>
    intro ds ds' _ s hs
    cases hs
  | cons a rest ih =>
    intro ds ds' h s hs
    simp only [refreshLoop] at h
    cases h1 : dfind? ds a with
    | none => rw [h1] at h; cases h
    | some entry =>
      rw [h1] at h
      cases hg : dfind? g2 a with
      | none => rw [hg] at h; cases h
      | some e2 =>
        rw [hg] at h
        have hnodup : (dkeys e2).Nodup :=
          h2 (a, e2) (dfind?_mem g2 a e2 hg)
        have hupd : ∀ e, dfind? (dupdate entry e2) e =
            (dfind? e2 e).orElse (fun _ => dfind? entry e) :=
          fun e => dfind?_dupdate entry e2 hnodup e
        by_cases hsr : s ∈ rest
        · obtain ⟨e1', e2', m, hds1, hg2', hds', hm⟩ := ih _ _ h s hsr
          by_cases hsa : s = a
          · subst hsa
            rw [dfind?_dinsert, if_pos rfl] at hds1
            cases hds1
            rw [hg] at hg2'
            cases hg2'
            refine ⟨entry, e2, m, h1, hg, hds', ?_⟩
            intro e
            rw [hm e, hupd e, orElse_self_absorb]
          · rw [dfind?_dinsert, if_neg (fun he => hsa he.symm)] at hds1
            exact ⟨e1', e2', m, hds1, hg2', hds', hm⟩
        · have hsa : s = a := by
            cases hs with
            | head => rfl
            | tail _ hmem => exact absurd hmem hsr
          subst hsa
          have hds' : dfind? ds' s = some (dupdate entry e2) := by
            rw [refreshLoop_ok_unchanged g2 rest _ _ h s hsr,
              dfind?_dinsert, if_pos rfl]
          exact ⟨entry, e2, dupdate entry e2, h1, hg, hds', hupd⟩

/-- Claim C3 counterexample: with requested symbols `["A", "B"]`, a
first group response holding only `"A"` and an empty second group
response, `"B"` is absent from the first group yet `refresh` fails with
the bare `KeyError` from `data2["A"]`, not with `SymbolNotFound`. -/
theorem refresh_keyerror_preempts_symbolNotFound :
    dcontains ([("A", [("quote", JVal.num 1)])] : Dict (Dict JVal))
      "B" = false ∧
    refresh ["A", "B"] [("A", [("quote", JVal.num 1)])]
      ([] : Dict (Dict JVal)) = Except.error (RefreshErr.keyErr "A") ∧
    isSymbolNotFound (refresh ["A", "B"] [("A", [("quote", JVal.num 1)])]
      ([] : Dict (Dict JVal))) = false :=
  ⟨rfl, rfl, rfl⟩

/-- Claim C3 (amended): `refresh` fails with `SymbolNotFound` exactly
when, scanning the requested symbols in order, the first symbol missing
from either response group is missing from the first group (a preceding
symbol present in the first group but missing from the second fails
with a bare `KeyError` instead); on success, the consolidated data set
maps every requested symbol to the right-biased union of that symbol's
endpoint entries from the two response groups. -/
theorem refresh_consolidation (symbols : List String)
    (g1 g2 : Dict (Dict JVal))
    (h2 : ∀ p ∈ g2, (dkeys p.2).Nodup) :
    (isSymbolNotFound (refresh symbols g1 g2) = true ↔
      ∃ s, firstBad symbols g1 g2 = some s ∧ dcontains g1 s = false) ∧
    (∀ ds, refresh symbols g1 g2 = .ok ds → ∀ s ∈ symbols,
      ∃ e1 e2 m, dfind? g1 s = some e1 ∧ dfind? g2 s = some e2 ∧
        dfind? ds s = some m ∧
        ∀ e, dfind? m e =
          (dfind? e2 e).orElse (fun _ => dfind? e1 e)) :=
  ⟨refreshLoop_symbolNotFound_iff g2 symbols g1,
   fun ds h s hs => refreshLoop_ok_merge g2 h2 symbols g1 ds h s hs⟩

/-- Concrete instance of `refresh_consolidation`: one symbol present in
both groups consolidates to the union of its endpoint entries. -/
theorem refresh_consolidation_witness :
    (∀ p ∈ ([("A", [("price", JVal.num 2)])] : Dict (Dict JVal)),
        (dkeys p.2).Nodup) ∧
    ((isSymbolNotFound (refresh ["A"] [("A", [("quote", JVal.num 1)])]
        [("A", [("price", JVal.num 2)])]) = true ↔
      ∃ s, firstBad ["A"] [("A", [("quote", JVal.num 1)])]
          [("A", [("price", JVal.num 2)])] = some s ∧
        dcontains ([("A", [("quote", JVal.num 1)])] : Dict (Dict JVal))
          s = false) ∧
    (∀ ds, refresh ["A"] [("A", [("quote", JVal.num 1)])]
        [("A", [("price", JVal.num 2)])] = .ok ds →
      ∀ s ∈ (["A"] : List String),
      ∃ e1 e2 m,
        dfind? ([("A", [("quote", JVal.num 1)])] : Dict (Dict JVal)) s =
          some e1 ∧
        dfind? ([("A", [("price", JVal.num 2)])] : Dict (Dict JVal)) s =
          some e2 ∧
        dfind? ds s = some m ∧
        ∀ e, dfind? m e =
          (dfind? e2 e).orElse (fun _ => dfind? e1 e))) :=
  ⟨by decide,
   refresh_consolidation ["A"] [("A", [("quote", JVal.num 1)])]
     [("A", [("price", JVal.num 2)])] (by decide)⟩

end IexFinance
